import Mathlib

/-!
Shallow embedding of the prediction-market bot's live order book, venue
normalization, signal detectors, signal engine and risk manager
(adapters/base.py, adapters/kalshi_ws.py, signals/cross_exchange.py,
signals/book_imbalance.py, signals/engine.py, risk/manager.py).

Prices and sizes are rationals; a Python dict keyed by price is modelled as
an insertion-ordered association list with unique keys.  Wall-clock fields
(last_updated timestamps) are not modelled; UTC dates are integers.
-/

namespace PMBot

/-- Python dict lookup `m.get(k)` on an insertion-ordered association list. -/
def dictGet (m : List (ℚ × ℚ)) (k : ℚ) : Option ℚ :=
  match m with
  | [] => none
  | e :: rest => if e.1 = k then some e.2 else dictGet rest k

/-- Python dict assignment `m[k] = v`: update the existing entry in place,
otherwise append a fresh entry. -/
def dictSet (m : List (ℚ × ℚ)) (k v : ℚ) : List (ℚ × ℚ) :=
  if m.any (fun e => decide (e.1 = k)) then
    m.map (fun e => if e.1 = k then (k, v) else e)
  else m ++ [(k, v)]

/-- Python `m.pop(k, None)`: drop the entry for key `k` if present. -/
def dictPop (m : List (ℚ × ℚ)) (k : ℚ) : List (ℚ × ℚ) :=
  m.filter (fun e => decide (e.1 ≠ k))

/-- Python dict comprehension over a list of pairs (later keys override). -/
def dictOfPairs (l : List (ℚ × ℚ)) : List (ℚ × ℚ) :=
  l.foldl (fun m e => dictSet m e.1 e.2) []

/-- Maximum of a list of rationals (Python `max(keys)`), `none` when empty. -/
def listMaxQ : List ℚ → Option ℚ
  | [] => none
  | x :: xs =>
    match listMaxQ xs with
    | none => some x
    | some m => some (max x m)

/-- Minimum of a list of rationals (Python `min(keys)`), `none` when empty. -/
def listMinQ : List ℚ → Option ℚ
  | [] => none
  | x :: xs =>
    match listMinQ xs with
    | none => some x
    | some m => some (min x m)

/-- adapters/base.py `LiveOrderBook`: canonical bid/ask book for one market.
Callbacks are modelled by opaque numeric ids; the `last_updated` wall-clock
timestamp is not modelled. -/
structure LiveOrderBook where
  market_id : String
  platform : String
  is_synced : Bool := false
  bids : List (ℚ × ℚ) := []
  asks : List (ℚ × ℚ) := []
  callbacks : List Nat := []
deriving DecidableEq

/-- `LiveOrderBook.apply_snapshot`: replace both sides, filtering out
non-positive sizes, and mark the book synced. -/
def apply_snapshot (b : LiveOrderBook) (bids asks : List (ℚ × ℚ)) : LiveOrderBook :=
  { b with
    bids := dictOfPairs (bids.filter (fun e => decide (0 < e.2)))
    asks := dictOfPairs (asks.filter (fun e => decide (0 < e.2)))
    is_synced := true }

/-- `LiveOrderBook.apply_delta`: set a level to an absolute size; a size
at or below zero removes the level.  Any side string other than "bid"
addresses the ask side, as in the source. -/
def apply_delta (b : LiveOrderBook) (side : String) (price new_size : ℚ) : LiveOrderBook :=
  if side = "bid" then
    { b with bids := if new_size ≤ 0 then dictPop b.bids price else dictSet b.bids price new_size }
  else
    { b with asks := if new_size ≤ 0 then dictPop b.asks price else dictSet b.asks price new_size }

/-- `LiveOrderBook.apply_delta_increment`: add `delta` to the current size
(0 when the level is absent); a resulting size at or below zero removes
the level. -/
def apply_delta_increment (b : LiveOrderBook) (side : String) (price delta : ℚ) : LiveOrderBook :=
  if side = "bid" then
    let new_size := (dictGet b.bids price).getD 0 + delta
    { b with bids := if new_size ≤ 0 then dictPop b.bids price else dictSet b.bids price new_size }
  else
    let new_size := (dictGet b.asks price).getD 0 + delta
    { b with asks := if new_size ≤ 0 then dictPop b.asks price else dictSet b.asks price new_size }

/-- `LiveOrderBook.get_best_bid`: highest bid price. -/
def get_best_bid (b : LiveOrderBook) : Option ℚ :=
  listMaxQ (b.bids.map Prod.fst)

/-- `LiveOrderBook.get_best_ask`: lowest ask price. -/
def get_best_ask (b : LiveOrderBook) : Option ℚ :=
  listMinQ (b.asks.map Prod.fst)

/-- `LiveOrderBook.get_spread`: ask minus bid when both sides are present. -/
def get_spread (b : LiveOrderBook) : Option ℚ :=
  match get_best_bid b, get_best_ask b with
  | some bid, some ask => some (ask - bid)
  | _, _ => none

/-- `LiveOrderBook.get_bid_depth`: total bid size within `depth_pct` of the
best bid. -/
def get_bid_depth (b : LiveOrderBook) (depth_pct : ℚ) : ℚ :=
  match get_best_bid b with
  | none => 0
  | some best =>
    ((b.bids.filter (fun e => decide (best * (1 - depth_pct) ≤ e.1))).map Prod.snd).sum

/-- `LiveOrderBook.get_ask_depth`: total ask size within `depth_pct` of the
best ask. -/
def get_ask_depth (b : LiveOrderBook) (depth_pct : ℚ) : ℚ :=
  match get_best_ask b with
  | none => 0
  | some best =>
    ((b.asks.filter (fun e => decide (e.1 ≤ best * (1 + depth_pct)))).map Prod.snd).sum

/-- One mutation of a live book, for stating trace invariants. -/
inductive BookOp
  | snapshot (bids asks : List (ℚ × ℚ))
  | delta (side : String) (price new_size : ℚ)
  | delta_increment (side : String) (price delta : ℚ)

/-- Apply one book operation. -/
def apply_op (b : LiveOrderBook) : BookOp → LiveOrderBook
  | .snapshot bids asks => apply_snapshot b bids asks
  | .delta side price new_size => apply_delta b side price new_size
  | .delta_increment side price delta => apply_delta_increment b side price delta

/-- Apply a sequence of book operations in order. -/
def run_ops (b : LiveOrderBook) (ops : List BookOp) : LiveOrderBook :=
  ops.foldl apply_op b

/-- Every level on either side of the book has strictly positive size. -/
def sizes_positive (b : LiveOrderBook) : Prop :=
  (∀ e ∈ b.bids, 0 < e.2) ∧ (∀ e ∈ b.asks, 0 < e.2)

/-- A fresh empty book as created by the adapter registry. -/
def new_book (market_id platform : String) (cbs : List Nat) : LiveOrderBook :=
  { market_id := market_id, platform := platform, is_synced := false,
    bids := [], asks := [], callbacks := cbs }

/-- adapters/kalshi_ws.py `_handle_snapshot`, book-level part: the YES bid
ladder (cents) becomes canonical bids at `p/100`, the NO bid ladder becomes
canonical asks at `(100 - p)/100`, applied as a snapshot. -/
def kalshi_handle_snapshot (b : LiveOrderBook) (yes no : List (ℚ × ℚ)) : LiveOrderBook :=
  apply_snapshot b
    (yes.map (fun e => (e.1 / 100, e.2)))
    (no.map (fun e => ((100 - e.1) / 100, e.2)))

/-- adapters/kalshi_ws.py `_handle_delta`, book-level part: side "yes"
increments the canonical bid at `price/100`; any other side increments the
canonical ask at `(100 - price)/100`. -/
def kalshi_handle_delta (b : LiveOrderBook) (side : String) (price_cents delta : ℚ) :
    LiveOrderBook :=
  if side = "yes" then
    apply_delta_increment b "bid" (price_cents / 100) delta
  else
    apply_delta_increment b "ask" ((100 - price_cents) / 100) delta

/-- signals/base.py `SignalType`. -/
inductive SignalType
  | CROSS_EXCHANGE_ARB
  | BOOK_IMBALANCE
deriving DecidableEq

/-- signals/base.py `SignalDirection`. -/
inductive SignalDirection
  | BUY_YES
  | BUY_NO
  | SKIP
deriving DecidableEq

/-- The metadata dict attached to a signal: each field is `none` when the
key is absent.  `best_bid`, `best_ask` and `spread` store an optional value
because the producing code can store a Python `None` under those keys. -/
structure SignalMetadata where
  best_bid : Option (Option ℚ) := none
  best_ask : Option (Option ℚ) := none
  spread : Option (Option ℚ) := none
  imbalance : Option ℚ := none
  bid_vol : Option ℚ := none
  ask_vol : Option ℚ := none
  total_vol : Option ℚ := none
  depth_pct : Option ℚ := none
  poly_ask : Option ℚ := none
  poly_bid : Option ℚ := none
  kalshi_ask : Option ℚ := none
  kalshi_bid : Option ℚ := none
  gross_spread : Option ℚ := none
  net_spread : Option ℚ := none
  min_spread_threshold : Option ℚ := none
deriving DecidableEq

/-- signals/base.py `Signal` (the `created_at` wall-clock field is not
modelled). -/
structure Signal where
  signal_type : SignalType
  direction : SignalDirection
  platform : String
  market_id : String
  edge_estimate : ℚ
  strength : ℚ
  buy_platform : Option String := none
  sell_platform : Option String := none
  buy_market_id : Option String := none
  sell_market_id : Option String := none
  buy_price : Option ℚ := none
  sell_price : Option ℚ := none
  metadata : SignalMetadata := {}
  fired : Bool := false
deriving DecidableEq

/-- signals/cross_exchange.py `_FEES["polymarket"]`. -/
def poly_fee : ℚ := 2 / 100

/-- signals/cross_exchange.py `_FEES["kalshi"]`. -/
def kalshi_fee : ℚ := 7 / 100

/-- signals/cross_exchange.py `CrossExchangeSignal.evaluate`. -/
def cross_exchange_evaluate (min_spread : ℚ) (poly_book kalshi_book : LiveOrderBook)
    (poly_market_id kalshi_market_id : String) : Option Signal :=
  if poly_book.is_synced = false ∨ kalshi_book.is_synced = false then none else
  match get_best_ask poly_book, get_best_bid poly_book,
        get_best_ask kalshi_book, get_best_bid kalshi_book with
  | some poly_ask, some poly_bid, some kalshi_ask, some kalshi_bid =>
    let spread_poly_buy := kalshi_bid - poly_ask - poly_fee - kalshi_fee
    let spread_kalshi_buy := poly_bid - kalshi_ask - kalshi_fee - poly_fee
    let best_spread := max spread_poly_buy spread_kalshi_buy
    if best_spread < min_spread then none
    else
      let strength := min (best_spread / (min_spread * 5)) 1
      let meta : SignalMetadata :=
        { poly_ask := some poly_ask, poly_bid := some poly_bid,
          kalshi_ask := some kalshi_ask, kalshi_bid := some kalshi_bid,
          net_spread := some best_spread,
          min_spread_threshold := some min_spread }
      if spread_kalshi_buy ≤ spread_poly_buy then
        some { signal_type := .CROSS_EXCHANGE_ARB, direction := .BUY_YES,
               platform := "polymarket", market_id := poly_market_id,
               edge_estimate := best_spread, strength := strength,
               buy_platform := some "polymarket", sell_platform := some "kalshi",
               buy_market_id := some poly_market_id,
               sell_market_id := some kalshi_market_id,
               buy_price := some poly_ask, sell_price := some kalshi_bid,
               metadata := { meta with gross_spread := some (kalshi_bid - poly_ask) } }
      else
        some { signal_type := .CROSS_EXCHANGE_ARB, direction := .BUY_YES,
               platform := "kalshi", market_id := kalshi_market_id,
               edge_estimate := best_spread, strength := strength,
               buy_platform := some "kalshi", sell_platform := some "polymarket",
               buy_market_id := some kalshi_market_id,
               sell_market_id := some poly_market_id,
               buy_price := some kalshi_ask, sell_price := some poly_bid,
               metadata := { meta with gross_spread := some (poly_bid - kalshi_ask) } }
  | _, _, _, _ => none

/-- signals/book_imbalance.py constructor parameters with their defaults. -/
structure ImbalanceParams where
  bullish_threshold : ℚ := 65 / 100
  bearish_threshold : ℚ := 35 / 100
  depth_pct : ℚ := 5 / 100
  min_depth_usd : ℚ := 500
  sensitivity : ℚ := 20 / 100
deriving DecidableEq

/-- The signal constructed at the end of
`BookImbalanceSignal.evaluate` once a direction was chosen: strength is
clamped into [0, 1] and the edge is capped at 0.15. -/
def imbalance_signal (book : LiveOrderBook) (P : ImbalanceParams)
    (imbalance bid_vol ask_vol total_vol : ℚ)
    (direction : SignalDirection) (edge0 strength0 : ℚ) : Signal :=
  { signal_type := .BOOK_IMBALANCE, direction := direction,
    platform := book.platform, market_id := book.market_id,
    edge_estimate := min edge0 (15/100),
    strength := min (max strength0 0) 1,
    metadata :=
      { imbalance := some imbalance, bid_vol := some bid_vol,
        ask_vol := some ask_vol, total_vol := some total_vol,
        best_bid := some (get_best_bid book),
        best_ask := some (get_best_ask book),
        spread := some (get_spread book),
        depth_pct := some P.depth_pct } }

/-- signals/book_imbalance.py `BookImbalanceSignal.evaluate`. -/
def book_imbalance_evaluate (P : ImbalanceParams) (book : LiveOrderBook) : Option Signal :=
  if book.is_synced = false then none else
  let bid_vol := get_bid_depth book P.depth_pct
  let ask_vol := get_ask_depth book P.depth_pct
  let total_vol := bid_vol + ask_vol
  if total_vol < P.min_depth_usd then none else
  let imbalance := bid_vol / total_vol
  if P.bullish_threshold < imbalance then
    some (imbalance_signal book P imbalance bid_vol ask_vol total_vol .BUY_YES
      ((imbalance - 1/2) * P.sensitivity)
      ((imbalance - P.bullish_threshold) / (1 - P.bullish_threshold)))
  else if imbalance < P.bearish_threshold then
    some (imbalance_signal book P imbalance bid_vol ask_vol total_vol .BUY_NO
      ((1/2 - imbalance) * P.sensitivity)
      ((P.bearish_threshold - imbalance) / P.bearish_threshold))
  else none

/-- signals/engine.py `ArbPair`. -/
structure ArbPair where
  poly_book : LiveOrderBook
  kalshi_book : LiveOrderBook
  poly_market_id : String
  kalshi_market_id : String
deriving DecidableEq

/-- A registered engine callback: an opaque id plus a flag saying whether the
callback raises when invoked (its Python body is outside the model). -/
structure EngineCallback where
  id : Nat
  throws : Bool
deriving DecidableEq

/-- signals/engine.py `SignalEngine` registrations and detector parameters. -/
structure SignalEngine where
  min_spread : ℚ := 15 / 1000
  imbalance_params : ImbalanceParams := {}
  arb_pairs : List ArbPair := []
  books : List LiveOrderBook := []
  callbacks : List EngineCallback := []
deriving DecidableEq

/-- The signals emitted by both detector passes of `evaluate_all`, in
collection order (arb pairs first, then single books). -/
def collected_signals (e : SignalEngine) : List Signal :=
  e.arb_pairs.filterMap (fun p =>
    cross_exchange_evaluate e.min_spread p.poly_book p.kalshi_book
      p.poly_market_id p.kalshi_market_id)
  ++ e.books.filterMap (fun b => book_imbalance_evaluate e.imbalance_params b)

/-- Insert a signal into a strength-descending list. -/
def insert_by_strength (s : Signal) : List Signal → List Signal
  | [] => [s]
  | t :: ts => if t.strength < s.strength then s :: t :: ts else t :: insert_by_strength s ts

/-- Python `signals.sort(key=strength, reverse=True)`. -/
def sort_by_strength_desc (l : List Signal) : List Signal :=
  l.foldr insert_by_strength []

/-- signals/engine.py `SignalEngine.evaluate_all`: returns the sorted fired
signals together with the ids of the callbacks the engine invoked (every
invocation receives the whole sorted list; an exception raised by one
callback is caught, so every registered callback is still invoked). -/
def evaluate_all (e : SignalEngine) : List Signal × List Nat :=
  let signals := sort_by_strength_desc (collected_signals e)
  let invoked := if signals.isEmpty then [] else e.callbacks.map (fun c => c.id)
  (signals, invoked)

/-- One element of the risk manager's pipe-delimited `check_log` trace, with
the numeric payloads the source formats into the string. -/
inductive CheckItem
  | fail_duplicate
  | pass_no_duplicate
  | fail_daily_loss
  | pass_daily_loss
  | fail_edge
  | pass_edge (edge : ℚ)
  | kelly_info (kelly frac : ℚ)
  | fail_zero_size
  | pass_single_cap (max_pos pos : ℚ)
  | fail_exposure_ceiling
  | pass_total_cap (remaining final : ℚ)
deriving DecidableEq

/-- risk/manager.py `RiskDecision`. -/
structure RiskDecision where
  approved : Bool
  position_size_usd : ℚ := 0
  kelly_fraction : ℚ := 0
  check_log : List CheckItem := []
deriving DecidableEq

/-- risk/manager.py `RiskManager` state; UTC dates are integers. -/
structure RiskManager where
  bankroll : ℚ
  kelly_fraction : ℚ := 1/4
  max_position_fraction : ℚ := 8/100
  max_total_exposure : ℚ := 1/4
  min_edge_threshold : ℚ := 15/1000
  max_daily_loss : ℚ := 0
  open_positions : List (String × ℚ) := []
  daily_pnl : ℚ := 0
  pnl_date : ℤ := 0
deriving DecidableEq

/-- `RiskManager._maybe_reset_daily_pnl`, with the current UTC date passed
explicitly. -/
def maybe_reset_daily_pnl (rm : RiskManager) (today : ℤ) : RiskManager :=
  if today ≠ rm.pnl_date then { rm with daily_pnl := 0, pnl_date := today } else rm

/-- `RiskManager.total_exposure_usd`. -/
def total_exposure_usd (rm : RiskManager) : ℚ :=
  (rm.open_positions.map Prod.snd).sum

/-- Python `max(min(x, 0.99), 0.01)` from `RiskManager._kelly`. -/
def clamp_entry (x : ℚ) : ℚ :=
  max (min x (99/100)) (1/100)

/-- Python `x or d` on an optional number: `None` and `0` both fall back. -/
def truthy_or (o : Option ℚ) (d : ℚ) : ℚ :=
  match o with
  | none => d
  | some v => if v = 0 then d else v

/-- The entry-price computation inside `RiskManager._kelly`:
`mid = metadata.get("best_bid", 0.45)`; BUY_NO takes `1 - (mid or 0.55)`,
every other direction takes `mid or 0.45`; the result is clamped into
`[0.01, 0.99]`. -/
def kelly_entry (direction : SignalDirection) (best_bid : Option (Option ℚ)) : ℚ :=
  let mid : Option ℚ := best_bid.getD (some (45/100))
  let raw : ℚ :=
    match direction with
    | .BUY_NO => 1 - truthy_or mid (55/100)
    | _ => truthy_or mid (45/100)
  clamp_entry raw

/-- `RiskManager._kelly`: the binary Kelly fraction, floored at 0. -/
def kelly (sig : Signal) : ℚ :=
  let edge := sig.edge_estimate
  let entry := kelly_entry sig.direction sig.metadata.best_bid
  let b := (1 - entry) / entry
  let p := min (entry + edge) (99/100)
  let q := 1 - p
  let k := if 0 < b then (b * p - q) / b else 0
  max k 0

/-- `RiskManager.check`: the six-stage pre-trade gate.  Returns the decision
together with the (possibly PnL-reset) state. -/
def check (rm0 : RiskManager) (today : ℤ) (sig : Signal) : RiskDecision × RiskManager :=
  let rm := maybe_reset_daily_pnl rm0 today
  if sig.market_id ∈ rm.open_positions.map Prod.fst then
    ({ approved := false, check_log := [.fail_duplicate] }, rm)
  else if 0 < rm.max_daily_loss ∧ rm.daily_pnl ≤ -rm.max_daily_loss then
    ({ approved := false, check_log := [.pass_no_duplicate, .fail_daily_loss] }, rm)
  else if sig.edge_estimate < rm.min_edge_threshold then
    ({ approved := false,
       check_log := [.pass_no_duplicate, .pass_daily_loss, .fail_edge] }, rm)
  else
    let kelly_frac := kelly sig
    let fractional := kelly_frac * rm.kelly_fraction
    let max_pos_usd := rm.bankroll * rm.max_position_fraction
    let pos_usd := min (fractional * rm.bankroll) max_pos_usd
    if pos_usd ≤ 0 then
      ({ approved := false,
         check_log := [.pass_no_duplicate, .pass_daily_loss,
                       .pass_edge sig.edge_estimate,
                       .kelly_info kelly_frac fractional, .fail_zero_size] }, rm)
    else
      let max_total_usd := rm.bankroll * rm.max_total_exposure
      let remaining := max_total_usd - total_exposure_usd rm
      if remaining ≤ 0 then
        ({ approved := false,
           check_log := [.pass_no_duplicate, .pass_daily_loss,
                         .pass_edge sig.edge_estimate,
                         .kelly_info kelly_frac fractional,
                         .pass_single_cap max_pos_usd pos_usd,
                         .fail_exposure_ceiling] }, rm)
      else
        let final := min pos_usd remaining
        ({ approved := true, position_size_usd := final,
           kelly_fraction := kelly_frac,
           check_log := [.pass_no_duplicate, .pass_daily_loss,
                         .pass_edge sig.edge_estimate,
                         .kelly_info kelly_frac fractional,
                         .pass_single_cap max_pos_usd pos_usd,
                         .pass_total_cap remaining final] }, rm)

/-- adapters/base.py `BaseMarketAdapter` registry state. -/
structure AdapterState where
  platform : String
  books : List (String × LiveOrderBook) := []
  subscriptions : List String := []
  global_callbacks : List Nat := []
deriving DecidableEq

/-- Lookup in the adapter's `market_id → book` registry. -/
def books_get : List (String × LiveOrderBook) → String → Option LiveOrderBook
  | [], _ => none
  | e :: rest, k => if e.1 = k then some e.2 else books_get rest k

/-- One iteration of the loop in `BaseMarketAdapter.subscribe`: add the id
to the subscription set and create a fresh book (carrying the global
callbacks) only when the id has no book yet. -/
def subscribe_one (st : AdapterState) (mid : String) : AdapterState :=
  let subs := if mid ∈ st.subscriptions then st.subscriptions else st.subscriptions ++ [mid]
  match books_get st.books mid with
  | some _ => { st with subscriptions := subs }
  | none =>
    { st with
      subscriptions := subs
      books := st.books ++ [(mid, new_book mid st.platform st.global_callbacks)] }

/-- adapters/base.py `BaseMarketAdapter.subscribe`. -/
def subscribe (st : AdapterState) (ids : List String) : AdapterState :=
  ids.foldl subscribe_one st

/-! Helper lemmas about the dictionary operations. -/

theorem mem_dictSet {m : List (ℚ × ℚ)} {k v : ℚ} {e : ℚ × ℚ}
    (h : e ∈ dictSet m k v) : e ∈ m ∨ e = (k, v) := by
  unfold dictSet at h
  split at h
  · rcases List.mem_map.mp h with ⟨a, ha, hae⟩
    by_cases hk : a.1 = k
    · right
      simpa [hk] using hae.symm
    · left
      rw [if_neg hk] at hae
      exact hae ▸ ha
  · rcases List.mem_append.mp h with h' | h'
    · exact Or.inl h'
    · right
      simpa using h'

theorem mem_dictPop {m : List (ℚ × ℚ)} {k : ℚ} {e : ℚ × ℚ}
    (h : e ∈ dictPop m k) : e ∈ m :=
  List.mem_of_mem_filter h

theorem dictOfPairs_pos {l : List (ℚ × ℚ)} (hl : ∀ e ∈ l, 0 < e.2) :
    ∀ e ∈ dictOfPairs l, 0 < e.2 := by
  suffices h : ∀ (l' : List (ℚ × ℚ)) (acc : List (ℚ × ℚ)),
      (∀ e ∈ acc, 0 < e.2) → (∀ e ∈ l', 0 < e.2) →
      ∀ e ∈ l'.foldl (fun m e => dictSet m e.1 e.2) acc, 0 < e.2 by
    exact h l [] (by simp) hl
  intro l'
  induction l' with
  | nil => intro acc hacc _ e he; exact hacc e he
  | cons x xs ih =>
    intro acc hacc hcons e he
    refine ih (dictSet acc x.1 x.2) ?_ (fun e' he' => hcons e' (List.mem_cons_of_mem x he')) e he
    intro e' he'
    rcases mem_dictSet he' with h' | h'
    · exact hacc e' h'
    · rw [h']
      exact hcons x (List.mem_cons_self x xs)

/-- C6 step lemma: a snapshot establishes the positive-size property
unconditionally, because it filters out non-positive sizes. -/
theorem apply_snapshot_pos (b : LiveOrderBook) (bids asks : List (ℚ × ℚ)) :
    sizes_positive (apply_snapshot b bids asks) := by
  constructor <;>
  · intro e he
    refine dictOfPairs_pos ?_ e he
    intro e' he'
    have := List.of_mem_filter he'
    exact of_decide_eq_true this

theorem dictSet_pos {m : List (ℚ × ℚ)} {k v : ℚ} (hm : ∀ e ∈ m, 0 < e.2) (hv : 0 < v) :
    ∀ e ∈ dictSet m k v, 0 < e.2 := by
  intro e he
  rcases mem_dictSet he with h | h
  · exact hm e h
  · rw [h]; exact hv

theorem apply_delta_pos (b : LiveOrderBook) (side : String) (price new_size : ℚ)
    (h : sizes_positive b) : sizes_positive (apply_delta b side price new_size) := by
  obtain ⟨hb, ha⟩ := h
  unfold apply_delta
  split <;> constructor <;> intro e he <;> simp only at he
  · split at he
    · exact hb e (mem_dictPop he)
    · exact dictSet_pos hb (by linarith [not_le.mp (by assumption : ¬ new_size ≤ 0)]) e he
  · exact ha e he
  · exact hb e he
  · split at he
    · exact ha e (mem_dictPop he)
    · exact dictSet_pos ha (by linarith [not_le.mp (by assumption : ¬ new_size ≤ 0)]) e he

theorem apply_delta_increment_pos (b : LiveOrderBook) (side : String) (price delta : ℚ)
    (h : sizes_positive b) : sizes_positive (apply_delta_increment b side price delta) := by
  obtain ⟨hb, ha⟩ := h
  unfold apply_delta_increment
  split <;> constructor <;> intro e he <;> simp only at he
  · split at he
    · exact hb e (mem_dictPop he)
    · exact dictSet_pos hb (by linarith [not_le.mp (by assumption :
        ¬ (dictGet b.bids price).getD 0 + delta ≤ 0)]) e he
  · exact ha e he
  · exact hb e he
  · split at he
    · exact ha e (mem_dictPop he)
    · exact dictSet_pos ha (by linarith [not_le.mp (by assumption :
        ¬ (dictGet b.asks price).getD 0 + delta ≤ 0)]) e he

theorem run_ops_pos (ops : List BookOp) (b : LiveOrderBook) (h : sizes_positive b) :
    sizes_positive (run_ops b ops) := by
  induction ops generalizing b with
  | nil => exact h
  | cons op rest ih =>
    refine ih (apply_op b op) ?_
    cases op with
    | snapshot bids asks => exact apply_snapshot_pos b bids asks
    | delta side price new_size => exact apply_delta_pos b side price new_size h
    | delta_increment side price delta => exact apply_delta_increment_pos b side price delta h

/-- C6: starting from the empty book, any sequence of snapshot, delta and
delta-increment operations leaves every price level on either side with a
strictly positive size. -/
theorem book_sizes_positive (ops : List BookOp) (mid pf : String) (cbs : List Nat) :
    sizes_positive (run_ops (new_book mid pf cbs) ops) := by
  refine run_ops_pos ops _ ?_
  constructor <;> intro e he <;> simp [new_book] at he

theorem dictGet_of_forall_ne {m : List (ℚ × ℚ)} {k : ℚ} (h : ∀ e ∈ m, e.1 ≠ k) :
    dictGet m k = none := by
  induction m with
  | nil => rfl
  | cons e rest ih =>
    unfold dictGet
    rw [if_neg (h e (List.mem_cons_self e rest))]
    exact ih (fun e' he' => h e' (List.mem_cons_of_mem e he'))

theorem dictSet_of_forall_ne {m : List (ℚ × ℚ)} {k v : ℚ} (h : ∀ e ∈ m, e.1 ≠ k) :
    dictSet m k v = m ++ [(k, v)] := by
  unfold dictSet
  rw [if_neg]
  simp only [List.any_eq_true, decide_eq_true_eq, not_exists]
  intro e hc
  exact h e hc.1 hc.2

theorem dictGet_dictPop_self (m : List (ℚ × ℚ)) (k : ℚ) :
    dictGet (dictPop m k) k = none := by
  refine dictGet_of_forall_ne ?_
  intro e he
  have := List.of_mem_filter he
  exact of_decide_eq_true this

theorem dictGet_append_of_none {m : List (ℚ × ℚ)} (l : List (ℚ × ℚ)) {k : ℚ}
    (h : dictGet m k = none) : dictGet (m ++ l) k = dictGet l k := by
  induction m with
  | nil => rfl
  | cons e rest ih =>
    rw [List.cons_append]
    have hstep : dictGet (e :: (rest ++ l)) k =
        if e.1 = k then some e.2 else dictGet (rest ++ l) k := rfl
    have hh : (if e.1 = k then some e.2 else dictGet rest k) = none := h
    rw [hstep]
    by_cases hk : e.1 = k
    · rw [if_pos hk] at hh; cases hh
    · rw [if_neg hk] at hh
      rw [if_neg hk]
      exact ih hh

theorem dictGet_map_overwrite (m : List (ℚ × ℚ)) (k v : ℚ)
    (h : m.any (fun e => decide (e.1 = k)) = true) :
    dictGet (m.map (fun e => if e.1 = k then (k, v) else e)) k = some v := by
  induction m with
  | nil => simp at h
  | cons e rest ih =>
    simp only [List.map_cons]
    by_cases hk : e.1 = k
    · rw [if_pos hk]
      simp [dictGet]
    · rw [if_neg hk]
      unfold dictGet
      rw [if_neg hk]
      apply ih
      simp only [List.any_cons, Bool.or_eq_true, decide_eq_true_eq] at h
      rcases h with h | h
      · exact absurd h hk
      · exact h

theorem dictGet_dictSet_self (m : List (ℚ × ℚ)) (k v : ℚ) :
    dictGet (dictSet m k v) k = some v := by
  unfold dictSet
  split
  · rename_i hany
    exact dictGet_map_overwrite m k v hany
  · rename_i hany
    rw [dictGet_append_of_none [(k, v)] ?_]
    · simp [dictGet]
    · refine dictGet_of_forall_ne ?_
      intro e he hk
      exact hany (by simp only [List.any_eq_true, decide_eq_true_eq]; exact ⟨e, he, hk⟩)

theorem dictOfPairs_eq_self {l : List (ℚ × ℚ)} (h : (l.map Prod.fst).Nodup) :
    dictOfPairs l = l := by
  suffices hgen : ∀ (l' : List (ℚ × ℚ)) (acc : List (ℚ × ℚ)),
      ((l'.map Prod.fst).Nodup) →
      (∀ e ∈ acc, ∀ e' ∈ l', e.1 ≠ e'.1) →
      l'.foldl (fun m e => dictSet m e.1 e.2) acc = acc ++ l' by
    simpa using hgen l [] h (by simp)
  intro l'
  induction l' with
  | nil => intro acc _ _; simp
  | cons x xs ih =>
    intro acc hnd hdisj
    obtain ⟨hx, hxs⟩ :=
      List.nodup_cons.mp (show (x.1 :: xs.map Prod.fst).Nodup from hnd)
    simp only [List.foldl_cons]
    rw [show dictSet acc x.1 x.2 = acc ++ [(x.1, x.2)] from
      dictSet_of_forall_ne (fun e he => hdisj e he x (List.mem_cons_self x xs))]
    rw [ih (acc ++ [(x.1, x.2)]) hxs ?_]
    · simp
    · intro e he e' he'
      rcases List.mem_append.mp he with h' | h'
      · exact hdisj e h' e' (List.mem_cons_of_mem x he')
      · have hex : e = (x.1, x.2) := by simpa using h'
        rw [hex]
        intro hc
        exact hx (hc ▸ List.mem_map_of_mem Prod.fst he')

theorem dictGet_of_mem_nodup {l : List (ℚ × ℚ)} {k v : ℚ}
    (hnd : (l.map Prod.fst).Nodup) (hmem : (k, v) ∈ l) :
    dictGet l k = some v := by
  induction l with
  | nil => cases hmem
  | cons e rest ih =>
    obtain ⟨hhead, htail⟩ :=
      List.nodup_cons.mp (show (e.1 :: rest.map Prod.fst).Nodup from hnd)
    unfold dictGet
    rcases List.mem_cons.mp hmem with h | h
    · rw [← h]
      simp
    · have hk : e.1 ≠ k := by
        intro hc
        exact hhead (hc ▸ List.mem_map_of_mem Prod.fst h)
      rw [if_neg hk]
      exact ih htail h

theorem div_hundred_injective : Function.Injective (fun x : ℚ => x / 100) := by
  intro a b hab
  field_simp at hab
  exact hab

theorem hundred_sub_div_injective : Function.Injective (fun x : ℚ => (100 - x) / 100) := by
  intro a b hab
  field_simp at hab
  linarith

/-- C1: Kalshi normalization.  In a snapshot frame every YES entry
`[p, s]` with positive size lands as the canonical bid at `p/100` with
size `s`, and every NO entry `[p, s]` with positive size lands as the
canonical ask at `(100 - p)/100` with size `s` (assuming, as on the wire,
that each ladder lists each price once).  A delta frame with side "yes"
increments the canonical bid level at `price/100` by `delta` (removing it
when the result is non-positive) and leaves the asks untouched; side "no"
increments the canonical ask level at `(100 - price)/100` by `delta` and
leaves the bids untouched. -/
theorem kalshi_normalization (yes no : List (ℚ × ℚ)) (b : LiveOrderBook)
    (hyes : (yes.map Prod.fst).Nodup) (hno : (no.map Prod.fst).Nodup) :
    (∀ p s, (p, s) ∈ yes → 0 < s →
       dictGet (kalshi_handle_snapshot b yes no).bids (p / 100) = some s) ∧
    (∀ p s, (p, s) ∈ no → 0 < s →
       dictGet (kalshi_handle_snapshot b yes no).asks ((100 - p) / 100) = some s) ∧
    (∀ price delta,
       dictGet (kalshi_handle_delta b "yes" price delta).bids (price / 100) =
         (if (dictGet b.bids (price / 100)).getD 0 + delta ≤ 0 then none
          else some ((dictGet b.bids (price / 100)).getD 0 + delta)) ∧
       (kalshi_handle_delta b "yes" price delta).asks = b.asks) ∧
    (∀ price delta,
       dictGet (kalshi_handle_delta b "no" price delta).asks ((100 - price) / 100) =
         (if (dictGet b.asks ((100 - price) / 100)).getD 0 + delta ≤ 0 then none
          else some ((dictGet b.asks ((100 - price) / 100)).getD 0 + delta)) ∧
       (kalshi_handle_delta b "no" price delta).bids = b.bids) := by
  refine ⟨?_, ?_, ?_, ?_⟩
  · intro p s hmem hpos
    have hndL : (((yes.map (fun e => (e.1 / 100, e.2))).filter
        (fun e => decide (0 < e.2))).map Prod.fst).Nodup := by
      refine List.Nodup.sublist (List.Sublist.map Prod.fst
        (List.filter_sublist (yes.map (fun e => (e.1 / 100, e.2))))) ?_
      have hmap : (yes.map (fun e => (e.1 / 100, e.2))).map Prod.fst =
          (yes.map Prod.fst).map (fun x => x / 100) := by
        simp [List.map_map, Function.comp]
      rw [hmap]
      exact hyes.map div_hundred_injective
    have hb : (kalshi_handle_snapshot b yes no).bids =
        dictOfPairs ((yes.map (fun e => (e.1 / 100, e.2))).filter
          (fun e => decide (0 < e.2))) := rfl
    rw [hb, dictOfPairs_eq_self hndL]
    refine dictGet_of_mem_nodup hndL ?_
    exact List.mem_filter.mpr
      ⟨List.mem_map_of_mem (fun e => (e.1 / 100, e.2)) hmem, decide_eq_true hpos⟩
  · intro p s hmem hpos
    have hndL : (((no.map (fun e => ((100 - e.1) / 100, e.2))).filter
        (fun e => decide (0 < e.2))).map Prod.fst).Nodup := by
      refine List.Nodup.sublist (List.Sublist.map Prod.fst
        (List.filter_sublist (no.map (fun e => ((100 - e.1) / 100, e.2))))) ?_
      have hmap : (no.map (fun e => ((100 - e.1) / 100, e.2))).map Prod.fst =
          (no.map Prod.fst).map (fun x => (100 - x) / 100) := by
        simp [List.map_map, Function.comp]
      rw [hmap]
      exact hno.map hundred_sub_div_injective
    have hb : (kalshi_handle_snapshot b yes no).asks =
        dictOfPairs ((no.map (fun e => ((100 - e.1) / 100, e.2))).filter
          (fun e => decide (0 < e.2))) := rfl
    rw [hb, dictOfPairs_eq_self hndL]
    refine dictGet_of_mem_nodup hndL ?_
    exact List.mem_filter.mpr
      ⟨List.mem_map_of_mem (fun e => ((100 - e.1) / 100, e.2)) hmem, decide_eq_true hpos⟩
  · intro price delta
    have hd : kalshi_handle_delta b "yes" price delta =
        { b with bids := (if (dictGet b.bids (price / 100)).getD 0 + delta ≤ 0 then dictPop b.bids (price / 100) else dictSet b.bids (price / 100) ((dictGet b.bids (price / 100)).getD 0 + delta)) } := by
      unfold kalshi_handle_delta apply_delta_increment
      rw [if_pos rfl, if_pos rfl]
    rw [hd]
    refine ⟨?_, rfl⟩
    dsimp only
    split_ifs with h
    · exact dictGet_dictPop_self _ _
    · exact dictGet_dictSet_self _ _ _
  · intro price delta
    have hd : kalshi_handle_delta b "no" price delta =
        { b with asks := (if (dictGet b.asks ((100 - price) / 100)).getD 0 + delta ≤ 0 then dictPop b.asks ((100 - price) / 100) else dictSet b.asks ((100 - price) / 100) ((dictGet b.asks ((100 - price) / 100)).getD 0 + delta)) } := by
      unfold kalshi_handle_delta apply_delta_increment
      rw [if_neg (by decide), if_neg (by decide)]
    rw [hd]
    refine ⟨?_, rfl⟩
    dsimp only
    split_ifs with h
    · exact dictGet_dictPop_self _ _
    · exact dictGet_dictSet_self _ _ _

/-- C1 witness: the spec's scenario S1 snapshot, evaluated through the
theorem at the YES entry `[55, 200]`. -/
theorem kalshi_normalization_witness :
    dictGet (kalshi_handle_snapshot (new_book "K" "kalshi" [])
      [(55, 200), (54, 300)] [(40, 100)]).bids (55 / 100) = some 200 :=
  (kalshi_normalization [(55, 200), (54, 300)] [(40, 100)] (new_book "K" "kalshi" [])
    (by decide) (by decide)).1 55 200 (by simp) (by norm_num)

theorem books_get_append_left {l : List (String × LiveOrderBook)}
    (l' : List (String × LiveOrderBook)) {mid : String} {b : LiveOrderBook}
    (h : books_get l mid = some b) : books_get (l ++ l') mid = some b := by
  induction l with
  | nil => cases h
  | cons e rest ih =>
    rw [List.cons_append]
    have hh : (if e.1 = mid then some e.2 else books_get rest mid) = some b := h
    show (if e.1 = mid then some e.2 else books_get (rest ++ l') mid) = some b
    by_cases hk : e.1 = mid
    · rw [if_pos hk] at hh ⊢
      exact hh
    · rw [if_neg hk] at hh ⊢
      exact ih hh

theorem subscribe_one_preserves (st : AdapterState) (x : String) {mid : String}
    {b : LiveOrderBook} (h : books_get st.books mid = some b) :
    books_get (subscribe_one st x).books mid = some b := by
  unfold subscribe_one
  cases hx : books_get st.books x with
  | some v =>
    simp only [hx]
    exact h
  | none =>
    simp only [hx]
    exact books_get_append_left _ h

/-- C10: re-subscribing never resets or replaces a live book.  Whatever book
object the registry maps a market id to before a `subscribe` call, it maps
the id to the identical book afterwards (same bids, asks, sync flag and
callback list), for any list of ids. -/
theorem subscribe_preserves_books (st : AdapterState) (ids : List String)
    {mid : String} {b : LiveOrderBook} (h : books_get st.books mid = some b) :
    books_get (subscribe st ids).books mid = some b := by
  induction ids generalizing st with
  | nil => exact h
  | cons x rest ih => exact ih (subscribe_one st x) (subscribe_one_preserves st x h)

/-- C10 witness: a synced, non-empty book survives a repeated subscribe of
its own market id unchanged. -/
theorem subscribe_preserves_books_witness :
    books_get (subscribe
      { platform := "kalshi",
        books := [("M", { market_id := "M", platform := "kalshi", is_synced := true,
                          bids := [(1/2, 5)], asks := [(3/5, 4)], callbacks := [7] })],
        subscriptions := ["M"], global_callbacks := [7] } ["M"]).books "M" =
    some { market_id := "M", platform := "kalshi", is_synced := true,
           bids := [(1/2, 5)], asks := [(3/5, 4)], callbacks := [7] } :=
  subscribe_preserves_books _ ["M"] rfl

/-- C2: the cross-venue arb detector, on a synced pair of books with all
four touch prices present, emits exactly when the better of the two net
spreads reaches `min_spread` (inclusive); the emitted signal carries that
spread as its edge, the normalised strength, and the buy leg as its primary
platform and market id. -/
theorem cross_exchange_evaluate_spec (ms : ℚ) (pb kb : LiveOrderBook) (pid kid : String)
    (poly_ask poly_bid kalshi_ask kalshi_bid : ℚ)
    (h1 : pb.is_synced = true) (h2 : kb.is_synced = true)
    (h3 : get_best_ask pb = some poly_ask) (h4 : get_best_bid pb = some poly_bid)
    (h5 : get_best_ask kb = some kalshi_ask) (h6 : get_best_bid kb = some kalshi_bid) :
    ((cross_exchange_evaluate ms pb kb pid kid).isSome = true ↔
      ms ≤ max (kalshi_bid - poly_ask - poly_fee - kalshi_fee)
        (poly_bid - kalshi_ask - kalshi_fee - poly_fee)) ∧
    (∀ sig, cross_exchange_evaluate ms pb kb pid kid = some sig →
      sig.edge_estimate = max (kalshi_bid - poly_ask - poly_fee - kalshi_fee)
          (poly_bid - kalshi_ask - kalshi_fee - poly_fee) ∧
      sig.strength = min (sig.edge_estimate / (5 * ms)) 1 ∧
      sig.buy_platform = some sig.platform ∧
      sig.buy_market_id = some sig.market_id ∧
      (if poly_bid - kalshi_ask - kalshi_fee - poly_fee ≤
          kalshi_bid - poly_ask - poly_fee - kalshi_fee
       then sig.platform = "polymarket" ∧ sig.market_id = pid
       else sig.platform = "kalshi" ∧ sig.market_id = kid)) := by
  constructor
  · unfold cross_exchange_evaluate
    rw [h1, h2, h3, h4, h5, h6, if_neg (by simp)]
    dsimp only
    split_ifs with hlt hbr
    · simp only [Option.isSome_none, Bool.false_eq_true, false_iff, not_le]
      exact hlt
    · exact ⟨fun _ => not_lt.mp hlt, fun _ => rfl⟩
    · exact ⟨fun _ => not_lt.mp hlt, fun _ => rfl⟩
  · intro sig hsig
    unfold cross_exchange_evaluate at hsig
    rw [h1, h2, h3, h4, h5, h6, if_neg (by simp)] at hsig
    dsimp only at hsig
    split_ifs at hsig with hlt hbr
    · injection hsig with hsig
      subst hsig
      refine ⟨rfl, ?_, rfl, rfl, ?_⟩
      · dsimp only
        rw [mul_comm]
      · rw [if_pos hbr]
        exact ⟨rfl, rfl⟩
    · injection hsig with hsig
      subst hsig
      refine ⟨rfl, ?_, rfl, rfl, ?_⟩
      · dsimp only
        rw [mul_comm]
      · rw [if_neg hbr]
        exact ⟨rfl, rfl⟩

/-- C2 witness: the spec's scenario S5 (poly ask 0.40, kalshi bid 0.55)
fires a polymarket-buy signal with edge 0.06 and strength 0.8. -/
theorem cross_exchange_evaluate_spec_witness :
    (cross_exchange_evaluate (15/1000)
      { market_id := "P", platform := "polymarket", is_synced := true,
        bids := [(39/100, 10)], asks := [(40/100, 10)] }
      { market_id := "K", platform := "kalshi", is_synced := true,
        bids := [(55/100, 10)], asks := [(60/100, 10)] } "P" "K").isSome = true :=
  ((cross_exchange_evaluate_spec (15/1000)
      { market_id := "P", platform := "polymarket", is_synced := true,
        bids := [(39/100, 10)], asks := [(40/100, 10)] }
      { market_id := "K", platform := "kalshi", is_synced := true,
        bids := [(55/100, 10)], asks := [(60/100, 10)] } "P" "K"
      (40/100) (39/100) (60/100) (55/100)
      rfl rfl rfl rfl rfl rfl).1).mpr (by norm_num [poly_fee, kalshi_fee])

/-- C7: imbalance-detector gating.  Nothing is emitted for an unsynced
book, for insufficient near-touch depth, or for an imbalance inside the
closed neutral band; BUY_YES is emitted exactly when the imbalance is
strictly above the bullish threshold and BUY_NO exactly when it is
strictly below the bearish threshold.  The detector's depth floor is
assumed positive (as configured) and the thresholds correctly ordered. -/
theorem book_imbalance_gating (P : ImbalanceParams) (book : LiveOrderBook)
    (_hmd : 0 < P.min_depth_usd) (hth : P.bearish_threshold ≤ P.bullish_threshold) :
    (book.is_synced = false → book_imbalance_evaluate P book = none) ∧
    (get_bid_depth book P.depth_pct + get_ask_depth book P.depth_pct < P.min_depth_usd →
      book_imbalance_evaluate P book = none) ∧
    (book.is_synced = true →
     P.min_depth_usd ≤ get_bid_depth book P.depth_pct + get_ask_depth book P.depth_pct →
      (P.bearish_threshold ≤ get_bid_depth book P.depth_pct /
          (get_bid_depth book P.depth_pct + get_ask_depth book P.depth_pct) →
       get_bid_depth book P.depth_pct /
          (get_bid_depth book P.depth_pct + get_ask_depth book P.depth_pct) ≤
          P.bullish_threshold →
       book_imbalance_evaluate P book = none) ∧
      ((∃ sig, book_imbalance_evaluate P book = some sig ∧
          sig.direction = SignalDirection.BUY_YES) ↔
        P.bullish_threshold < get_bid_depth book P.depth_pct /
          (get_bid_depth book P.depth_pct + get_ask_depth book P.depth_pct)) ∧
      ((∃ sig, book_imbalance_evaluate P book = some sig ∧
          sig.direction = SignalDirection.BUY_NO) ↔
        get_bid_depth book P.depth_pct /
          (get_bid_depth book P.depth_pct + get_ask_depth book P.depth_pct) <
          P.bearish_threshold)) := by
  refine ⟨?_, ?_, ?_⟩
  · intro hs
    unfold book_imbalance_evaluate
    rw [if_pos hs]
  · intro hlt
    unfold book_imbalance_evaluate
    by_cases hs : book.is_synced = false
    · rw [if_pos hs]
    · rw [if_neg hs]
      dsimp only
      rw [if_pos hlt]
  · intro hs htot
    refine ⟨?_, ?_, ?_⟩
    · intro hbe hbu
      unfold book_imbalance_evaluate
      rw [hs, if_neg (by simp), if_neg (not_lt.mpr htot)]
      dsimp only
      rw [if_neg (not_lt.mpr hbu), if_neg (not_lt.mpr hbe)]
    · constructor
      · rintro ⟨sig, hsig, hdir⟩
        by_contra h3
        unfold book_imbalance_evaluate at hsig
        rw [hs, if_neg (by simp), if_neg (not_lt.mpr htot)] at hsig
        dsimp only at hsig
        rw [if_neg h3] at hsig
        by_cases h4 : get_bid_depth book P.depth_pct /
            (get_bid_depth book P.depth_pct + get_ask_depth book P.depth_pct) <
            P.bearish_threshold
        · rw [if_pos h4] at hsig
          injection hsig with hsig
          rw [← hsig] at hdir
          simp [imbalance_signal] at hdir
        · rw [if_neg h4] at hsig
          cases hsig
      · intro h3
        refine ⟨imbalance_signal book P
          (get_bid_depth book P.depth_pct /
            (get_bid_depth book P.depth_pct + get_ask_depth book P.depth_pct))
          (get_bid_depth book P.depth_pct) (get_ask_depth book P.depth_pct)
          (get_bid_depth book P.depth_pct + get_ask_depth book P.depth_pct)
          .BUY_YES
          ((get_bid_depth book P.depth_pct /
            (get_bid_depth book P.depth_pct + get_ask_depth book P.depth_pct) - 1/2) *
            P.sensitivity)
          ((get_bid_depth book P.depth_pct /
            (get_bid_depth book P.depth_pct + get_ask_depth book P.depth_pct) -
            P.bullish_threshold) / (1 - P.bullish_threshold)), ?_, rfl⟩
        unfold book_imbalance_evaluate
        rw [hs, if_neg (by simp), if_neg (not_lt.mpr htot)]
        dsimp only
        rw [if_pos h3]
    · constructor
      · rintro ⟨sig, hsig, hdir⟩
        by_contra h4
        unfold book_imbalance_evaluate at hsig
        rw [hs, if_neg (by simp), if_neg (not_lt.mpr htot)] at hsig
        dsimp only at hsig
        by_cases h3 : P.bullish_threshold < get_bid_depth book P.depth_pct /
            (get_bid_depth book P.depth_pct + get_ask_depth book P.depth_pct)
        · rw [if_pos h3] at hsig
          injection hsig with hsig
          rw [← hsig] at hdir
          simp [imbalance_signal] at hdir
        · rw [if_neg h3, if_neg h4] at hsig
          cases hsig
      · intro h4
        have h3 : ¬ P.bullish_threshold < get_bid_depth book P.depth_pct /
            (get_bid_depth book P.depth_pct + get_ask_depth book P.depth_pct) := by
          push_neg
          exact le_of_lt (lt_of_lt_of_le h4 hth)
        refine ⟨imbalance_signal book P
          (get_bid_depth book P.depth_pct /
            (get_bid_depth book P.depth_pct + get_ask_depth book P.depth_pct))
          (get_bid_depth book P.depth_pct) (get_ask_depth book P.depth_pct)
          (get_bid_depth book P.depth_pct + get_ask_depth book P.depth_pct)
          .BUY_NO
          ((1/2 - get_bid_depth book P.depth_pct /
            (get_bid_depth book P.depth_pct + get_ask_depth book P.depth_pct)) *
            P.sensitivity)
          ((P.bearish_threshold - get_bid_depth book P.depth_pct /
            (get_bid_depth book P.depth_pct + get_ask_depth book P.depth_pct)) /
            P.bearish_threshold), ?_, rfl⟩
        unfold book_imbalance_evaluate
        rw [hs, if_neg (by simp), if_neg (not_lt.mpr htot)]
        dsimp only
        rw [if_neg h3, if_pos h4]

/-- C7 witness: the spec's scenario S3 book (depth 1100 vs 300, imbalance
11/14) emits BUY_YES under the default parameters. -/
theorem book_imbalance_gating_witness :
    ∃ sig, book_imbalance_evaluate {}
      { market_id := "I", platform := "kalshi", is_synced := true,
        bids := [(50/100, 600), (49/100, 500)],
        asks := [(51/100, 200), (52/100, 100)] } = some sig ∧
      sig.direction = SignalDirection.BUY_YES :=
  ((book_imbalance_gating {}
      { market_id := "I", platform := "kalshi", is_synced := true,
        bids := [(50/100, 600), (49/100, 500)],
        asks := [(51/100, 200), (52/100, 100)] }
      (by norm_num) (by norm_num)).2.2 rfl
      (by norm_num [get_bid_depth, get_ask_depth, get_best_bid, get_best_ask,
        listMaxQ, listMinQ, List.filter])).2.1.mpr
      (by norm_num [get_bid_depth, get_ask_depth, get_best_bid, get_best_ask,
        listMaxQ, listMinQ, List.filter])

/-- Modelled from the claim's words for C3: entry =
`1 - clamp(best_bid ?? 0.55, 0.01, 0.99)` for BUY_NO and
`clamp(best_bid ?? 0.45, 0.01, 0.99)` for BUY_YES, where `??` replaces a
missing or null value by the stated default. -/
def claimed_kelly_entry (direction : SignalDirection) (best_bid : Option (Option ℚ)) : ℚ :=
  match direction with
  | .BUY_NO => 1 - clamp_entry ((best_bid.getD (some (55/100))).getD (55/100))
  | _ => clamp_entry ((best_bid.getD (some (45/100))).getD (45/100))

/-- C3 counterexample: for a BUY_NO signal whose metadata has no
`best_bid` key, the code's entry price is 0.55 (the `.get` default 0.45
pre-empts the `or 0.55` fallback), while the claim's formula yields
0.45. -/
theorem kelly_entry_counterexample :
    kelly_entry SignalDirection.BUY_NO none = 11/20 ∧
    claimed_kelly_entry SignalDirection.BUY_NO none = 9/20 ∧
    kelly_entry SignalDirection.BUY_NO none ≠
      claimed_kelly_entry SignalDirection.BUY_NO none := by
  refine ⟨?_, ?_, ?_⟩ <;>
    norm_num [kelly_entry, claimed_kelly_entry, clamp_entry, truthy_or, min_def, max_def]

/-- The fallback mid-price the code actually uses in the BUY_NO branch: a
missing `best_bid` key defaults to 0.45 (the `.get` default), a present
null or zero value falls back to 0.55. -/
def code_mid_no (best_bid : Option (Option ℚ)) : ℚ :=
  match best_bid with
  | none => 45/100
  | some none => 55/100
  | some (some v) => if v = 0 then 55/100 else v

/-- The fallback mid-price the code actually uses in the BUY_YES branch:
0.45 both for a missing key and for a present null or zero value. -/
def code_mid_yes (best_bid : Option (Option ℚ)) : ℚ :=
  match best_bid with
  | none => 45/100
  | some none => 45/100
  | some (some v) => if v = 0 then 45/100 else v

theorem clamp_entry_one_sub (x : ℚ) : clamp_entry (1 - x) = 1 - clamp_entry x := by
  unfold clamp_entry
  rcases le_total x (1/100) with h | h <;> rcases le_total x (99/100) with h' | h' <;>
    rw [min_def, max_def, min_def, max_def] <;> split_ifs <;> linarith

/-- C3 amended: the entry price is `1 - clamp(m, 0.01, 0.99)` for BUY_NO
and `clamp(m', 0.01, 0.99)` for BUY_YES, where `m`/`m'` fall back to 0.45
when the `best_bid` key is missing (so a missing key gives entry 0.55 for
BUY_NO and 0.45 for BUY_YES), and a present null or zero value falls back
to 0.55 (BUY_NO) respectively 0.45 (BUY_YES). -/
theorem kelly_entry_amended (bb : Option (Option ℚ)) :
    kelly_entry SignalDirection.BUY_NO bb = 1 - clamp_entry (code_mid_no bb) ∧
    kelly_entry SignalDirection.BUY_YES bb = clamp_entry (code_mid_yes bb) := by
  constructor
  · rw [← clamp_entry_one_sub]
    rcases bb with _ | bb
    · norm_num [kelly_entry, code_mid_no, truthy_or]
    · rcases bb with _ | v
      · norm_num [kelly_entry, code_mid_no, truthy_or]
      · by_cases hv : v = 0 <;> simp [kelly_entry, code_mid_no, truthy_or, hv]
  · rcases bb with _ | bb
    · norm_num [kelly_entry, code_mid_yes, truthy_or]
    · rcases bb with _ | v
      · norm_num [kelly_entry, code_mid_yes, truthy_or]
      · by_cases hv : v = 0 <;> simp [kelly_entry, code_mid_yes, truthy_or, hv]

theorem maybe_reset_bankroll (rm : RiskManager) (today : ℤ) :
    (maybe_reset_daily_pnl rm today).bankroll = rm.bankroll := by
  unfold maybe_reset_daily_pnl
  split <;> rfl

theorem maybe_reset_max_position_fraction (rm : RiskManager) (today : ℤ) :
    (maybe_reset_daily_pnl rm today).max_position_fraction = rm.max_position_fraction := by
  unfold maybe_reset_daily_pnl
  split <;> rfl

theorem maybe_reset_max_total_exposure (rm : RiskManager) (today : ℤ) :
    (maybe_reset_daily_pnl rm today).max_total_exposure = rm.max_total_exposure := by
  unfold maybe_reset_daily_pnl
  split <;> rfl

theorem maybe_reset_max_daily_loss (rm : RiskManager) (today : ℤ) :
    (maybe_reset_daily_pnl rm today).max_daily_loss = rm.max_daily_loss := by
  unfold maybe_reset_daily_pnl
  split <;> rfl

theorem maybe_reset_open_positions (rm : RiskManager) (today : ℤ) :
    (maybe_reset_daily_pnl rm today).open_positions = rm.open_positions := by
  unfold maybe_reset_daily_pnl
  split <;> rfl

theorem maybe_reset_total_exposure (rm : RiskManager) (today : ℤ) :
    total_exposure_usd (maybe_reset_daily_pnl rm today) = total_exposure_usd rm := by
  unfold total_exposure_usd
  rw [maybe_reset_open_positions]

/-- C4: every approved decision has a strictly positive size, at most
`bankroll × max_position_fraction` large, and fits under the total-exposure
ceiling measured at check time. -/
theorem check_approved_caps (rm : RiskManager) (today : ℤ) (sig : Signal)
    (h : (check rm today sig).1.approved = true) :
    0 < (check rm today sig).1.position_size_usd ∧
    (check rm today sig).1.position_size_usd ≤
      rm.bankroll * rm.max_position_fraction ∧
    total_exposure_usd rm + (check rm today sig).1.position_size_usd ≤
      rm.bankroll * rm.max_total_exposure := by
  unfold check at h ⊢
  dsimp only at h ⊢
  rw [maybe_reset_bankroll, maybe_reset_max_position_fraction,
    maybe_reset_max_total_exposure, maybe_reset_total_exposure] at h ⊢
  split_ifs at h ⊢ with h1 h2 h3 h4 h5
  any_goals simp at h
  dsimp only
  refine ⟨lt_min (not_le.mp h4) (not_le.mp h5), ?_, ?_⟩
  · exact le_trans (min_le_left _ _) (min_le_right _ _)
  · have hrem := min_le_right
      (min (kelly sig * (maybe_reset_daily_pnl rm today).kelly_fraction * rm.bankroll)
        (rm.bankroll * rm.max_position_fraction))
      (rm.bankroll * rm.max_total_exposure - total_exposure_usd rm)
    linarith

/-- C4 witness: the spec's scenario S6 risk gate approves a $27.27 position
for a $1000 bankroll, which satisfies all three bounds. -/
theorem check_approved_caps_witness :
    (check { bankroll := 1000 } 0
      { signal_type := SignalType.CROSS_EXCHANGE_ARB,
        direction := SignalDirection.BUY_YES, platform := "polymarket",
        market_id := "m", edge_estimate := 6/100, strength := 4/5,
        metadata := { best_bid := some (some (45/100)) } }).1.approved = true ∧
    (0 < (check { bankroll := 1000 } 0
      { signal_type := SignalType.CROSS_EXCHANGE_ARB,
        direction := SignalDirection.BUY_YES, platform := "polymarket",
        market_id := "m", edge_estimate := 6/100, strength := 4/5,
        metadata := { best_bid := some (some (45/100)) } }).1.position_size_usd ∧
     (check { bankroll := 1000 } 0
      { signal_type := SignalType.CROSS_EXCHANGE_ARB,
        direction := SignalDirection.BUY_YES, platform := "polymarket",
        market_id := "m", edge_estimate := 6/100, strength := 4/5,
        metadata := { best_bid := some (some (45/100)) } }).1.position_size_usd ≤
       (1000 : ℚ) * (8/100) ∧
     total_exposure_usd { bankroll := 1000 } +
       (check { bankroll := 1000 } 0
        { signal_type := SignalType.CROSS_EXCHANGE_ARB,
          direction := SignalDirection.BUY_YES, platform := "polymarket",
          market_id := "m", edge_estimate := 6/100, strength := 4/5,
          metadata := { best_bid := some (some (45/100)) } }).1.position_size_usd ≤
       (1000 : ℚ) * (1/4)) := by
  have happ : (check { bankroll := 1000 } 0
      { signal_type := SignalType.CROSS_EXCHANGE_ARB,
        direction := SignalDirection.BUY_YES, platform := "polymarket",
        market_id := "m", edge_estimate := 6/100, strength := 4/5,
        metadata := { best_bid := some (some (45/100)) } }).1.approved = true := by
    norm_num [check, maybe_reset_daily_pnl, total_exposure_usd, kelly, kelly_entry,
      truthy_or, clamp_entry, min_def, max_def]
  exact ⟨happ, check_approved_caps { bankroll := 1000 } 0
    { signal_type := SignalType.CROSS_EXCHANGE_ARB,
      direction := SignalDirection.BUY_YES, platform := "polymarket",
      market_id := "m", edge_estimate := 6/100, strength := 4/5,
      metadata := { best_bid := some (some (45/100)) } } happ⟩

/-- C5: for a signal on a market without an open position, the check
rejects at the daily-loss stage exactly on the code's condition, the
condition is evaluated on the PnL after the UTC-day reset (so a new day
sees 0), and a zero `max_daily_loss` disables the halt. -/
theorem daily_loss_halt (rm : RiskManager) (today : ℤ) (sig : Signal)
    (hdup : sig.market_id ∉ rm.open_positions.map Prod.fst) :
    ((0 < rm.max_daily_loss ∧
        (maybe_reset_daily_pnl rm today).daily_pnl ≤ -rm.max_daily_loss) →
      (check rm today sig).1.approved = false ∧
      (check rm today sig).1.check_log =
        [CheckItem.pass_no_duplicate, CheckItem.fail_daily_loss]) ∧
    (today ≠ rm.pnl_date → (maybe_reset_daily_pnl rm today).daily_pnl = 0) ∧
    (rm.max_daily_loss = 0 →
      CheckItem.fail_daily_loss ∉ (check rm today sig).1.check_log) := by
  have hml : (maybe_reset_daily_pnl rm today).max_daily_loss = rm.max_daily_loss :=
    maybe_reset_max_daily_loss rm today
  have hop : (maybe_reset_daily_pnl rm today).open_positions = rm.open_positions :=
    maybe_reset_open_positions rm today
  refine ⟨?_, ?_, ?_⟩
  · intro hhit
    unfold check
    dsimp only
    rw [hop, hml]
    rw [if_neg hdup, if_pos hhit]
    exact ⟨rfl, rfl⟩
  · intro hnew
    unfold maybe_reset_daily_pnl
    rw [if_pos hnew]
  · intro hzero
    unfold check
    dsimp only
    rw [hop, hml]
    rw [if_neg hdup, if_neg (by rw [hzero]; rintro ⟨hc, _⟩; exact absurd hc (by norm_num))]
    split_ifs <;> simp

/-- C5 witness: the spec's scenario S7 (max daily loss $50, daily PnL
−$60, same UTC day) rejects at the daily-loss stage. -/
theorem daily_loss_halt_witness :
    (check { bankroll := 1000, max_daily_loss := 50, daily_pnl := -60 } 0
      { signal_type := SignalType.CROSS_EXCHANGE_ARB,
        direction := SignalDirection.BUY_YES, platform := "kalshi",
        market_id := "w", edge_estimate := 6/100, strength := 1 }).1.approved = false ∧
    (check { bankroll := 1000, max_daily_loss := 50, daily_pnl := -60 } 0
      { signal_type := SignalType.CROSS_EXCHANGE_ARB,
        direction := SignalDirection.BUY_YES, platform := "kalshi",
        market_id := "w", edge_estimate := 6/100, strength := 1 }).1.check_log =
      [CheckItem.pass_no_duplicate, CheckItem.fail_daily_loss] :=
  (daily_loss_halt { bankroll := 1000, max_daily_loss := 50, daily_pnl := -60 } 0
    { signal_type := SignalType.CROSS_EXCHANGE_ARB,
      direction := SignalDirection.BUY_YES, platform := "kalshi",
      market_id := "w", edge_estimate := 6/100, strength := 1 }
    (by simp)).1
    ⟨by norm_num, by norm_num [maybe_reset_daily_pnl]⟩

theorem clamp_entry_bounds (x : ℚ) : 1/100 ≤ clamp_entry x ∧ clamp_entry x ≤ 99/100 := by
  unfold clamp_entry
  exact ⟨le_max_right _ _, max_le (min_le_right _ _) (by norm_num)⟩

theorem kelly_entry_bounds (d : SignalDirection) (bb : Option (Option ℚ)) :
    1/100 ≤ kelly_entry d bb ∧ kelly_entry d bb ≤ 99/100 := by
  unfold kelly_entry
  exact clamp_entry_bounds _

/-- C9: for every signal the entry price is clamped into [0.01, 0.99], so
the Kelly odds `b` are strictly positive (the `b ≤ 0` fallback is
unreachable), the Kelly fraction lies in [0, 1), and consequently the
pre-cap fractional position `kelly × kelly_fraction × bankroll` never
exceeds `bankroll × kelly_fraction` for non-negative bankroll and
multiplier. -/
theorem kelly_fraction_range (sig : Signal) (bankroll kf : ℚ)
    (hb : 0 ≤ bankroll) (hk : 0 ≤ kf) :
    0 < (1 - kelly_entry sig.direction sig.metadata.best_bid) /
        kelly_entry sig.direction sig.metadata.best_bid ∧
    0 ≤ kelly sig ∧ kelly sig < 1 ∧
    kelly sig * kf * bankroll ≤ bankroll * kf := by
  obtain ⟨he1, he2⟩ := kelly_entry_bounds sig.direction sig.metadata.best_bid
  have hbpos : 0 < (1 - kelly_entry sig.direction sig.metadata.best_bid) /
      kelly_entry sig.direction sig.metadata.best_bid :=
    div_pos (by linarith) (by linarith)
  have hker : kelly sig =
      max (((1 - kelly_entry sig.direction sig.metadata.best_bid) /
          kelly_entry sig.direction sig.metadata.best_bid *
          min (kelly_entry sig.direction sig.metadata.best_bid + sig.edge_estimate)
            (99/100) -
        (1 - min (kelly_entry sig.direction sig.metadata.best_bid + sig.edge_estimate)
            (99/100))) /
        ((1 - kelly_entry sig.direction sig.metadata.best_bid) /
          kelly_entry sig.direction sig.metadata.best_bid)) 0 := by
    unfold kelly
    dsimp only
    rw [if_pos hbpos]
  have hp99 : min (kelly_entry sig.direction sig.metadata.best_bid + sig.edge_estimate)
      (99/100) ≤ 99/100 := min_le_right _ _
  have hqpos : 0 < 1 - min (kelly_entry sig.direction sig.metadata.best_bid +
      sig.edge_estimate) (99/100) := by linarith
  have hklt : kelly sig < 1 := by
    rw [hker]
    refine max_lt ?_ (by norm_num)
    rw [div_lt_one hbpos]
    have hprod : 0 < (1 - kelly_entry sig.direction sig.metadata.best_bid) /
        kelly_entry sig.direction sig.metadata.best_bid *
        (1 - min (kelly_entry sig.direction sig.metadata.best_bid + sig.edge_estimate)
          (99/100)) := mul_pos hbpos hqpos
    nlinarith
  have hk0 : 0 ≤ kelly sig := by
    rw [hker]
    exact le_max_right _ _
  refine ⟨hbpos, hk0, hklt, ?_⟩
  nlinarith [mul_nonneg hk hb, mul_nonneg (mul_nonneg hk hb) (sub_nonneg.mpr hklt.le)]

/-- C9 witness: the scenario-S6 signal with bankroll $1000 and Kelly
multiplier 0.25. -/
theorem kelly_fraction_range_witness :
    (0 : ℚ) ≤ 1000 ∧ (0 : ℚ) ≤ 1/4 ∧
    (0 < (1 - kelly_entry SignalDirection.BUY_YES (some (some (45/100)))) /
        kelly_entry SignalDirection.BUY_YES (some (some (45/100))) ∧
     0 ≤ kelly
          { signal_type := SignalType.CROSS_EXCHANGE_ARB,
            direction := SignalDirection.BUY_YES, platform := "polymarket",
            market_id := "m", edge_estimate := 6/100, strength := 4/5,
            metadata := { best_bid := some (some (45/100)) } } ∧
     kelly
          { signal_type := SignalType.CROSS_EXCHANGE_ARB,
            direction := SignalDirection.BUY_YES, platform := "polymarket",
            market_id := "m", edge_estimate := 6/100, strength := 4/5,
            metadata := { best_bid := some (some (45/100)) } } < 1 ∧
     kelly
          { signal_type := SignalType.CROSS_EXCHANGE_ARB,
            direction := SignalDirection.BUY_YES, platform := "polymarket",
            market_id := "m", edge_estimate := 6/100, strength := 4/5,
            metadata := { best_bid := some (some (45/100)) } } * (1/4) * 1000 ≤
       1000 * (1/4)) :=
  ⟨by norm_num, by norm_num,
   kelly_fraction_range
    { signal_type := SignalType.CROSS_EXCHANGE_ARB,
      direction := SignalDirection.BUY_YES, platform := "polymarket",
      market_id := "m", edge_estimate := 6/100, strength := 4/5,
      metadata := { best_bid := some (some (45/100)) } } 1000 (1/4)
    (by norm_num) (by norm_num)⟩

theorem insert_by_strength_perm (s : Signal) (l : List Signal) :
    (insert_by_strength s l).Perm (s :: l) := by
  induction l with
  | nil => exact List.Perm.refl _
  | cons t ts ih =>
    unfold insert_by_strength
    split_ifs with h
    · exact List.Perm.refl _
    · exact (List.Perm.cons t ih).trans (List.Perm.swap s t ts)

theorem sort_by_strength_desc_perm (l : List Signal) :
    (sort_by_strength_desc l).Perm l := by
  induction l with
  | nil => exact List.Perm.refl _
  | cons x xs ih =>
    show (insert_by_strength x (sort_by_strength_desc xs)).Perm (x :: xs)
    exact (insert_by_strength_perm x _).trans (List.Perm.cons x ih)

theorem insert_by_strength_sorted (s : Signal) (l : List Signal)
    (h : List.Pairwise (fun a b => b.strength ≤ a.strength) l) :
    List.Pairwise (fun a b => b.strength ≤ a.strength) (insert_by_strength s l) := by
  induction l with
  | nil => simp [insert_by_strength]
  | cons t ts ih =>
    obtain ⟨ht, hts⟩ := List.pairwise_cons.mp h
    unfold insert_by_strength
    split_ifs with hc
    · refine List.pairwise_cons.mpr ⟨?_, h⟩
      intro y hy
      rcases List.mem_cons.mp hy with rfl | hy'
      · exact le_of_lt hc
      · exact le_trans (ht y hy') (le_of_lt hc)
    · refine List.pairwise_cons.mpr ⟨?_, ih hts⟩
      intro y hy
      have hmem : y ∈ s :: ts := (insert_by_strength_perm s ts).mem_iff.mp hy
      rcases List.mem_cons.mp hmem with rfl | hy'
      · exact not_lt.mp hc
      · exact ht y hy'

theorem sort_by_strength_desc_sorted (l : List Signal) :
    List.Pairwise (fun a b => b.strength ≤ a.strength) (sort_by_strength_desc l) := by
  induction l with
  | nil => exact List.Pairwise.nil
  | cons x xs ih => exact insert_by_strength_sorted x _ ih

/-- C8 amended: `evaluate_all` returns a permutation of all signals the
detectors emitted, sorted by strength descending, and invokes every
registered callback with that list exactly when the list is non-empty (an
empty evaluation skips the callbacks); a callback that raises does not
prevent the others from being invoked. -/
theorem evaluate_all_amended (e : SignalEngine) :
    (evaluate_all e).1.Perm (collected_signals e) ∧
    List.Pairwise (fun a b => b.strength ≤ a.strength) (evaluate_all e).1 ∧
    (evaluate_all e).2 =
      (if (evaluate_all e).1.isEmpty then [] else e.callbacks.map (fun c => c.id)) ∧
    (∀ c ∈ e.callbacks, (evaluate_all e).1.isEmpty = false →
      c.id ∈ (evaluate_all e).2) := by
  refine ⟨sort_by_strength_desc_perm _, sort_by_strength_desc_sorted _, rfl, ?_⟩
  intro c hc hne
  show c.id ∈ (if (sort_by_strength_desc (collected_signals e)).isEmpty then []
    else e.callbacks.map (fun c => c.id))
  rw [if_neg (by rw [show (sort_by_strength_desc (collected_signals e)).isEmpty =
    false from hne]; exact Bool.false_ne_true)]
  exact List.mem_map_of_mem (fun c => c.id) hc

/-- C8 counterexample: an engine with one registered callback and no
registered books or pairs produces an empty signal list and invokes no
callback at all, contradicting the claim that every registered callback
is invoked at the end of each evaluation. -/
theorem evaluate_all_counterexample :
    (evaluate_all { callbacks := [{ id := 0, throws := false }] }).1 = [] ∧
    (evaluate_all { callbacks := [{ id := 0, throws := false }] }).2 = [] ∧
    (evaluate_all { callbacks := [{ id := 0, throws := false }] }).2 ≠
      [(0 : Nat)] :=
  ⟨rfl, rfl, by
    intro hc
    have hnil : ([] : List Nat) = [0] := by
      rw [show ([] : List Nat) =
        (evaluate_all { callbacks := [{ id := 0, throws := false }] }).2 from rfl]
      exact hc
    cases hnil⟩

end PMBot
